import Mathlib

/-!
Verification of the context-reconstruction and summarization pipeline of
`src/main.py` (Telegram message analyzer).  The message dictionaries built by
`TelegramMessageAnalyzer.fetch_messages` (src/model/message_analyzer.py) are
embedded as the structure `Msg`; the pure pipeline functions of `src/main.py`
(`filter_and_extend_messages`, `organize_by_participant`, `get_date_range`,
`generate_summaries` with its inner `process_participant`, and the post-fetch
part of `analyze_messages`) are embedded as Lean functions below.  The external
summarizer (Ollama chat call) is a parameter of type
`String → Except String String`: `.ok content` models a successful response,
`.error e` models a raised exception with message `e`.
-/

/-- Message record, mirroring the dictionary built in
`fetch_messages` (src/model/message_analyzer.py, lines 217-232).
`sender_name = none` models a dictionary without the `"sender_name"` key (the
code reads it with `msg.get("sender_name", ...)` defaults).  `sender_id = none`
models the stored Python `None` (fetch stores `None` when sender resolution
fails), so its Python `str(...)` form is `"None"`.  `forwarded_from = none`
models a stored `None`.  `reply_to_msg_id = none` models an absent
`"reply_to_msg_id"` key (fetch adds the key only for replies). -/
structure Msg where
  id : Nat
  datetime : String
  timestamp : String
  text : String
  sender_name : Option String
  sender_id : Option Int
  is_reply : Bool
  is_forwarded : Bool
  forwarded_from : Option String
  reply_to_msg_id : Option Nat
deriving DecidableEq

/-- A target-user identifier: `filter_and_extend_messages` accepts strings and
(per the claim and spec) numeric identifiers, handled by
`u.lower().strip('@') if isinstance(u, str) else str(u)` (src/main.py:172). -/
inductive Target where
  | str (s : String)
  | num (n : Int)
deriving DecidableEq

/-- Python `s.strip('@')`: removes all leading and trailing `'@'` characters. -/
def pyStripAt (s : String) : String :=
  String.mk (((s.data.dropWhile (· == '@')).reverse.dropWhile (· == '@')).reverse)

/-- Python `s.lower()` (ASCII case-folding), defined over the character list so
that concrete instances evaluate by `decide`. -/
def pyLower (s : String) : String := String.mk (s.data.map Char.toLower)

/-- Python `str(msg.get("sender_id", ""))` on a fetched message: the key is
always present, holding either an integer or `None`; `str(None) = "None"`
(src/main.py:178). -/
def sender_id_str (m : Msg) : String :=
  match m.sender_id with
  | some n => toString n
  | none => "None"

/-- Normalization of one target user
(`u.lower().strip('@') if isinstance(u, str) else str(u)`, src/main.py:172). -/
def norm_target : Target → String
  | .str s => pyStripAt (pyLower s)
  | .num n => toString n

/-- `target_users_lower` (src/main.py:172). -/
def normalized_targets (S : List Target) : List String := S.map norm_target

/-- `msg.get("sender_name", "").lower().strip('@')` (src/main.py:177). -/
def norm_sender_name (m : Msg) : String := pyStripAt (pyLower (m.sender_name.getD ""))

/-- The membership test of the filtering loop (src/main.py:180):
`sender_name in target_users_lower or sender_id in target_users_lower`. -/
def sender_matches (tl : List String) (m : Msg) : Bool :=
  decide (norm_sender_name m ∈ tl) || decide (sender_id_str m ∈ tl)

/-- Contribution of one filtered message to `context_message_ids`
(src/main.py:185-189): the set comprehension keeps
`msg.get("reply_to_msg_id")` when `msg.get("is_reply")` and the id are both
truthy; a stored reply id of `0` is falsy in Python and is skipped. -/
def reply_ctx_id (m : Msg) : Option Nat :=
  if m.is_reply then
    match m.reply_to_msg_id with
    | some rid => if rid = 0 then none else some rid
    | none => none
  else none

/-- `filtered_messages` (src/main.py:175-181). -/
def filtered_of (messages : List Msg) (target_users : List Target) : List Msg :=
  messages.filter (sender_matches (normalized_targets target_users))

/-- `context_message_ids` (src/main.py:185-189), as the list of its members. -/
def context_ids_of (filtered : List Msg) : List Nat := filtered.filterMap reply_ctx_id

/-- `context_messages` (src/main.py:192-196): messages of the input whose id is
a referenced reply id and is not among the ids of the filtered messages. -/
def context_of (messages filtered : List Msg) : List Msg :=
  messages.filter (fun m =>
    decide (m.id ∈ context_ids_of filtered ∧ ¬ m.id ∈ filtered.map Msg.id))

/-- `filter_and_extend_messages` (src/main.py:154-199).  An empty target list
models Python's `if not target_users` (both `None` and `[]`). -/
def filter_and_extend_messages (messages : List Msg) (target_users : List Target) :
    List Msg × List Msg :=
  if target_users.isEmpty then (messages, messages)
  else
    (filtered_of messages target_users,
     filtered_of messages target_users ++
       context_of messages (filtered_of messages target_users))

/-! Helper lemmas about the filtering stage. -/

lemma filter_idem {α : Type} (p : α → Bool) (l : List α) :
    (l.filter p).filter p = l.filter p := by
  induction l with
  | nil => rfl
  | cons a t ih =>
    by_cases h : p a <;> simp [List.filter_cons, h, ih]

lemma isEmpty_false_of_ne_nil {α : Type} {l : List α} (h : l ≠ []) :
    l.isEmpty = false := by
  cases l with
  | nil => exact absurd rfl h
  | cons a t => rfl

lemma reply_ctx_id_eq_some {m : Msg} {r : Nat} (h : reply_ctx_id m = some r) :
    m.is_reply = true ∧ m.reply_to_msg_id = some r ∧ r ≠ 0 := by
  unfold reply_ctx_id at h
  by_cases hb : m.is_reply
  · cases hrep : m.reply_to_msg_id with
    | none => simp [hb, hrep] at h
    | some rid =>
      by_cases h0 : rid = 0
      · simp [hb, hrep, h0] at h
      · simp [hb, hrep, h0] at h
        subst h
        exact ⟨hb, rfl, h0⟩
  · simp [hb] at h

lemma reply_ctx_id_of (m : Msg) (rid : Nat) (hb : m.is_reply = true)
    (hrep : m.reply_to_msg_id = some rid) (h0 : rid ≠ 0) :
    reply_ctx_id m = some rid := by
  simp [reply_ctx_id, hb, hrep, h0]

/-! Sample messages used as concrete inputs by witnesses and counterexamples. -/

/-- A plain message from alice. -/
def msgA : Msg :=
  { id := 1, datetime := "2024-01-01T10:00:00+00:00", timestamp := "2024-01-01 10:00:00",
    text := "hi", sender_name := some "alice", sender_id := some 11,
    is_reply := false, is_forwarded := false, forwarded_from := none,
    reply_to_msg_id := none }

/-- A plain message from bob, with id 2. -/
def msgB : Msg :=
  { id := 2, datetime := "2024-01-01T09:00:00+00:00", timestamp := "2024-01-01 09:00:00",
    text := "yo", sender_name := some "bob", sender_id := some 22,
    is_reply := false, is_forwarded := false, forwarded_from := none,
    reply_to_msg_id := none }

/-- A reply by alice to message id 2. -/
def msgReply : Msg :=
  { id := 3, datetime := "2024-01-01T11:00:00+00:00", timestamp := "2024-01-01 11:00:00",
    text := "re", sender_name := some "alice", sender_id := some 11,
    is_reply := true, is_forwarded := false, forwarded_from := none,
    reply_to_msg_id := some 2 }

/-- C9: applying the filtering step of `filter_and_extend_messages` to its own
filtered output, with the same target list, returns the same filtered list. -/
theorem C9_filter_idempotent (M : List Msg) (S : List Target) :
    (filter_and_extend_messages (filter_and_extend_messages M S).1 S).1 =
      (filter_and_extend_messages M S).1 := by
  by_cases h : S.isEmpty
  · simp [filter_and_extend_messages, h]
  · have h' : S.isEmpty = false := by
      revert h; cases S <;> simp
    simp [filter_and_extend_messages, h', filtered_of, filter_idem]

/-- C10: if the ids of the input messages are pairwise distinct, then so are
the ids of the extended list returned by `filter_and_extend_messages`: context
messages are added only when their id is not already among the filtered ids. -/
theorem C10_extended_ids_nodup (M : List Msg) (S : List Target)
    (h : (M.map Msg.id).Nodup) :
    ((filter_and_extend_messages M S).2.map Msg.id).Nodup := by
  by_cases hS : S.isEmpty
  · simpa [filter_and_extend_messages, hS] using h
  · have hS' : S.isEmpty = false := by
      revert hS; cases S <;> simp
    simp only [filter_and_extend_messages, hS', Bool.false_eq_true, if_false]
    rw [List.map_append]
    apply List.Nodup.append
    · exact ((List.filter_sublist M).map Msg.id).nodup h
    · exact ((List.filter_sublist M).map Msg.id).nodup h
    · intro a haf hac
      obtain ⟨c, hc, hcid⟩ := List.mem_map.mp hac
      have hcond := (List.mem_filter.mp hc).2
      rw [decide_eq_true_eq] at hcond
      exact hcond.2 (hcid ▸ haf)

/-- C10 witness: a concrete instance with distinct ids. -/
theorem C10_extended_ids_nodup_witness :
    ((filter_and_extend_messages [msgReply, msgB] [Target.str "alice"]).2.map Msg.id).Nodup :=
  C10_extended_ids_nodup [msgReply, msgB] [Target.str "alice"] (by decide)

/-! C1: context-extension guarantees. -/

/-- A reply by alice whose stored `reply_to_msg_id` is `0`: Python's truthiness
test `msg.get("reply_to_msg_id")` treats `0` as absent. -/
def c1_zero_reply : Msg :=
  { id := 1, datetime := "2024-01-02T10:00:00+00:00", timestamp := "2024-01-02 10:00:00",
    text := "re0", sender_name := some "alice", sender_id := some 11,
    is_reply := true, is_forwarded := false, forwarded_from := none,
    reply_to_msg_id := some 0 }

/-- A message by bob with id `0`, the would-be parent of `c1_zero_reply`. -/
def c1_zero_parent : Msg :=
  { id := 0, datetime := "2024-01-02T09:00:00+00:00", timestamp := "2024-01-02 09:00:00",
    text := "zero", sender_name := some "bob", sender_id := some 22,
    is_reply := false, is_forwarded := false, forwarded_from := none,
    reply_to_msg_id := none }

/-- C1 counterexample: a filtered message that is a reply with
`reply_to_msg_id = 0` whose parent (id `0`) is present in the input, yet no
message with id `0` is present in the extended output — the claim's
reply-parent clause fails as stated, because the code's truthiness test
`msg.get("reply_to_msg_id")` skips a reply id of `0`. -/
theorem C1_counterexample_zero_reply_id :
    c1_zero_reply ∈ (filter_and_extend_messages [c1_zero_reply, c1_zero_parent]
        [Target.str "alice"]).1
    ∧ c1_zero_reply.is_reply = true
    ∧ c1_zero_reply.reply_to_msg_id = some 0
    ∧ (∃ m ∈ [c1_zero_reply, c1_zero_parent], m.id = 0)
    ∧ ¬ (∃ x ∈ (filter_and_extend_messages [c1_zero_reply, c1_zero_parent]
          [Target.str "alice"]).2, x.id = 0) := by
  decide

/-- C1 (amended): for every message list `M` and non-empty target list `S`,
the filtered output is a prefix of the extended output; every extended message
occurs in `M`; for every filtered message that is a reply with a *nonzero*
`reply_to_msg_id`, if a message of `M` carries that id then some message with
that id is in the extended output; and every extended message is either
filtered or the one-hop parent of a filtered reply (no two-hop pull-in). -/
theorem C1_context_extension (M : List Msg) (S : List Target) (hS : S ≠ []) :
    (∃ t, (filter_and_extend_messages M S).2 = (filter_and_extend_messages M S).1 ++ t)
    ∧ (∀ m, m ∈ (filter_and_extend_messages M S).2 → m ∈ M)
    ∧ (∀ m, m ∈ (filter_and_extend_messages M S).1 → m.is_reply = true →
        ∀ rid, m.reply_to_msg_id = some rid → rid ≠ 0 →
        (∃ p, p ∈ M ∧ p.id = rid) →
        ∃ p, p ∈ (filter_and_extend_messages M S).2 ∧ p.id = rid)
    ∧ (∀ m, m ∈ (filter_and_extend_messages M S).2 →
        m ∈ (filter_and_extend_messages M S).1 ∨
        ∃ f, f ∈ (filter_and_extend_messages M S).1 ∧ f.is_reply = true ∧
          f.reply_to_msg_id = some m.id ∧ m.id ≠ 0) := by
  have hS' : S.isEmpty = false := isEmpty_false_of_ne_nil hS
  simp only [filter_and_extend_messages, hS', Bool.false_eq_true, if_false]
  refine ⟨⟨context_of M (filtered_of M S), rfl⟩, ?_, ?_, ?_⟩
  · intro m hm
    rcases List.mem_append.mp hm with h | h
    · exact (List.mem_filter.mp h).1
    · exact (List.mem_filter.mp h).1
  · intro m hm hb rid hrep h0 hex
    have hctx : rid ∈ context_ids_of (filtered_of M S) :=
      List.mem_filterMap.mpr ⟨m, hm, reply_ctx_id_of m rid hb hrep h0⟩
    by_cases hin : rid ∈ (filtered_of M S).map Msg.id
    · obtain ⟨q, hq, hqid⟩ := List.mem_map.mp hin
      exact ⟨q, List.mem_append_left _ hq, hqid⟩
    · obtain ⟨p, hpM, hpid⟩ := hex
      refine ⟨p, List.mem_append_right _ ?_, hpid⟩
      refine List.mem_filter.mpr ⟨hpM, ?_⟩
      rw [decide_eq_true_eq, hpid]
      exact ⟨hctx, hin⟩
  · intro m hm
    rcases List.mem_append.mp hm with h | h
    · exact Or.inl h
    · right
      have hcond := (List.mem_filter.mp h).2
      rw [decide_eq_true_eq] at hcond
      obtain ⟨f, hf, hfr⟩ := List.mem_filterMap.mp hcond.1
      obtain ⟨hfb, hfrep, hfne⟩ := reply_ctx_id_eq_some hfr
      exact ⟨f, hf, hfb, hfrep, hfne⟩

/-- C1 witness: the amended guarantee at a concrete two-message input. -/
theorem C1_context_extension_witness :
    (∃ t, (filter_and_extend_messages [msgReply, msgB] [Target.str "alice"]).2 =
        (filter_and_extend_messages [msgReply, msgB] [Target.str "alice"]).1 ++ t)
    ∧ (∀ m, m ∈ (filter_and_extend_messages [msgReply, msgB] [Target.str "alice"]).2 →
        m ∈ [msgReply, msgB])
    ∧ (∀ m, m ∈ (filter_and_extend_messages [msgReply, msgB] [Target.str "alice"]).1 →
        m.is_reply = true →
        ∀ rid, m.reply_to_msg_id = some rid → rid ≠ 0 →
        (∃ p, p ∈ [msgReply, msgB] ∧ p.id = rid) →
        ∃ p, p ∈ (filter_and_extend_messages [msgReply, msgB] [Target.str "alice"]).2 ∧
          p.id = rid)
    ∧ (∀ m, m ∈ (filter_and_extend_messages [msgReply, msgB] [Target.str "alice"]).2 →
        m ∈ (filter_and_extend_messages [msgReply, msgB] [Target.str "alice"]).1 ∨
        ∃ f, f ∈ (filter_and_extend_messages [msgReply, msgB] [Target.str "alice"]).1 ∧
          f.is_reply = true ∧ f.reply_to_msg_id = some m.id ∧ m.id ≠ 0) :=
  C1_context_extension [msgReply, msgB] [Target.str "alice"] (by decide)

/-! C4: characterization of membership in the filtered output. -/

/-- Normalization as worded by the claim: strip one *leading* `'@'`. -/
def claim_norm_text (s : String) : String :=
  match s.data with
  | '@' :: rest => String.mk rest
  | _ => s

/-- Target normalization as worded by the claim: case-fold and strip a leading
`'@'` for textual targets; string form for numeric targets. -/
def claim_norm_target : Target → String
  | .str s => claim_norm_text (pyLower s)
  | .num n => toString n

/-- The matching predicate exactly as the claim words it. -/
def claim_matches (m : Msg) (S : List Target) : Prop :=
  ∃ t ∈ S, claim_norm_text (pyLower (m.sender_name.getD "")) = claim_norm_target t
    ∨ sender_id_str m = claim_norm_target t

instance (m : Msg) (S : List Target) : Decidable (claim_matches m S) := by
  unfold claim_matches; exact List.decidableBEx _ S

/-- The matching predicate of the amended claim: Python `strip('@')` removes
*all leading and trailing* `'@'` characters from both the textual targets and
the message's sender name. -/
def amended_matches (m : Msg) (S : List Target) : Prop :=
  ∃ t ∈ S, norm_sender_name m = norm_target t ∨ sender_id_str m = norm_target t

instance (m : Msg) (S : List Target) : Decidable (amended_matches m S) := by
  unfold amended_matches; exact List.decidableBEx _ S

/-- A message from bob used against the target string `"bob@"`. -/
def c4_bob : Msg :=
  { id := 1, datetime := "2024-01-03T10:00:00+00:00", timestamp := "2024-01-03 10:00:00",
    text := "x", sender_name := some "bob", sender_id := none,
    is_reply := false, is_forwarded := false, forwarded_from := none,
    reply_to_msg_id := none }

/-- C4 counterexample: with target `"bob@"`, the code strips the trailing
`'@'` as well (Python `strip('@')`) and selects bob's message, while the
claim's leading-`'@'`-only normalization declares no match. -/
theorem C4_counterexample_trailing_at :
    c4_bob ∈ (filter_and_extend_messages [c4_bob] [Target.str "bob@"]).1
    ∧ ¬ claim_matches c4_bob [Target.str "bob@"] := by
  decide

/-- C4 (amended): for a non-empty target list, a message is in the filtered
output iff it is in the input and its sender name — case-folded with all
leading and trailing `'@'` stripped — or the Python string form of its sender
id equals some normalized target (textual targets case-folded and
`'@'`-stripped the same way, numeric targets taken as their string form). -/
theorem C4_filtered_membership (M : List Msg) (S : List Target) (hS : S ≠ [])
    (m : Msg) :
    m ∈ (filter_and_extend_messages M S).1 ↔ m ∈ M ∧ amended_matches m S := by
  have hS' : S.isEmpty = false := isEmpty_false_of_ne_nil hS
  simp only [filter_and_extend_messages, hS', Bool.false_eq_true, if_false, filtered_of]
  rw [List.mem_filter]
  refine and_congr_right fun _ => ?_
  simp only [sender_matches, Bool.or_eq_true, decide_eq_true_eq, amended_matches,
    normalized_targets, List.mem_map]
  constructor
  · rintro (⟨t, ht, hteq⟩ | ⟨t, ht, hteq⟩)
    · exact ⟨t, ht, Or.inl hteq.symm⟩
    · exact ⟨t, ht, Or.inr hteq.symm⟩
  · rintro ⟨t, ht, heq | heq⟩
    · exact Or.inl ⟨t, ht, heq.symm⟩
    · exact Or.inr ⟨t, ht, heq.symm⟩

/-- C4 witness: the amended characterization at a concrete input. -/
theorem C4_filtered_membership_witness :
    c4_bob ∈ (filter_and_extend_messages [c4_bob] [Target.str "@Bob"]).1 ↔
      c4_bob ∈ [c4_bob] ∧ amended_matches c4_bob [Target.str "@Bob"] :=
  C4_filtered_membership [c4_bob] [Target.str "@Bob"] (by decide) c4_bob

/-! Participant partitioning (`organize_by_participant`, src/main.py:201-217).
Python dictionaries are modelled as association lists in insertion order. -/

/-- `msg.get("sender_name", "Unknown")` (src/main.py:213). -/
def participant_key (m : Msg) : String := m.sender_name.getD "Unknown"

/-- One loop iteration of `organize_by_participant` (src/main.py:212-216):
append to the existing group of `name`, or create a new group at the end. -/
def add_to_group (name : String) (m : Msg) :
    List (String × List Msg) → List (String × List Msg)
  | [] => [(name, [m])]
  | (k, ms) :: rest =>
    if k = name then (k, ms ++ [m]) :: rest else (k, ms) :: add_to_group name m rest

/-- `organize_by_participant` (src/main.py:201-217). -/
def organize_by_participant (messages : List Msg) : List (String × List Msg) :=
  messages.foldl (fun parts m => add_to_group (participant_key m) m parts) []

/-- Association-list access, modelling Python `d[k]` / `k in d`. -/
def assoc_get {β : Type} (k : String) : List (String × β) → Option β
  | [] => none
  | (k0, v) :: rest => if k = k0 then some v else assoc_get k rest

lemma assoc_get_mem {β : Type} {k : String} {v : β} :
    ∀ {l : List (String × β)}, assoc_get k l = some v → (k, v) ∈ l := by
  intro l
  induction l with
  | nil => intro h; simp [assoc_get] at h
  | cons p rest ih =>
    obtain ⟨k0, v0⟩ := p
    intro h
    by_cases hk : k = k0
    · subst hk
      simp [assoc_get] at h
      subst h
      exact List.mem_cons_self _ _
    · simp [assoc_get, hk] at h
      exact List.mem_cons_of_mem _ (ih h)

lemma mem_assoc_get_of_nodup {β : Type} {k : String} {v : β} :
    ∀ {l : List (String × β)}, (l.map Prod.fst).Nodup → (k, v) ∈ l →
      assoc_get k l = some v := by
  intro l
  induction l with
  | nil => intro _ h; simp at h
  | cons p rest ih =>
    obtain ⟨k0, v0⟩ := p
    intro hnd hmem
    rw [List.map_cons, List.nodup_cons] at hnd
    rcases List.mem_cons.mp hmem with he | ht
    · rw [Prod.mk.injEq] at he
      obtain ⟨rfl, rfl⟩ := he
      simp [assoc_get]
    · have hk : k ≠ k0 := by
        intro he
        subst he
        exact hnd.1 (List.mem_map.mpr ⟨(k, v), ht, rfl⟩)
      simp only [assoc_get, if_neg hk]
      exact ih hnd.2 ht

lemma assoc_get_add_to_group (name : String) (m : Msg) :
    ∀ (parts : List (String × List Msg)) (k : String),
      assoc_get k (add_to_group name m parts) =
        if k = name then some (((assoc_get name parts).getD []) ++ [m])
        else assoc_get k parts := by
  intro parts
  induction parts with
  | nil =>
    intro k
    by_cases hk : k = name <;> simp [add_to_group, assoc_get, hk]
  | cons p rest ih =>
    obtain ⟨k0, ms0⟩ := p
    intro k
    by_cases h0 : k0 = name
    · subst h0
      by_cases hk : k = k0 <;> simp [add_to_group, assoc_get, hk]
    · by_cases hk : k = k0
      · subst hk
        simp [add_to_group, assoc_get, h0, Ne.symm h0]
      · simp [add_to_group, assoc_get, h0, hk, ih, Ne.symm h0]

lemma add_to_group_keys_sub (name : String) (m : Msg) :
    ∀ (parts : List (String × List Msg)) (x : String),
      x ∈ (add_to_group name m parts).map Prod.fst →
      x ∈ parts.map Prod.fst ∨ x = name := by
  intro parts
  induction parts with
  | nil => intro x hx; simp [add_to_group] at hx; exact Or.inr hx
  | cons p rest ih =>
    obtain ⟨k0, ms0⟩ := p
    intro x hx
    by_cases h0 : k0 = name
    · subst h0
      simp [add_to_group] at hx
      rcases hx with hx | hx
      · exact Or.inl (by simp [hx])
      · exact Or.inl (by simp [hx])
    · simp only [add_to_group, if_neg h0, List.map_cons, List.mem_cons] at hx
      rcases hx with hx | hx
      · exact Or.inl (by simp [hx])
      · rcases ih x hx with hx' | hx'
        · exact Or.inl (by simp [hx'])
        · exact Or.inr hx'

lemma add_to_group_keys_nodup (name : String) (m : Msg) :
    ∀ (parts : List (String × List Msg)), (parts.map Prod.fst).Nodup →
      ((add_to_group name m parts).map Prod.fst).Nodup := by
  intro parts
  induction parts with
  | nil => intro _; simp [add_to_group]
  | cons p rest ih =>
    obtain ⟨k0, ms0⟩ := p
    intro h
    rw [List.map_cons, List.nodup_cons] at h
    by_cases h0 : k0 = name
    · subst h0
      have hrw : add_to_group k0 m ((k0, ms0) :: rest) = (k0, ms0 ++ [m]) :: rest := by
        simp [add_to_group]
      rw [hrw, List.map_cons, List.nodup_cons]
      exact ⟨h.1, h.2⟩
    · simp only [add_to_group, if_neg h0, List.map_cons, List.nodup_cons]
      refine ⟨?_, ih h.2⟩
      intro hx
      rcases add_to_group_keys_sub name m rest k0 hx with hx' | hx'
      · exact h.1 hx'
      · exact h0 hx'

lemma add_to_group_sum (name : String) (m : Msg) :
    ∀ (parts : List (String × List Msg)),
      ((add_to_group name m parts).map (fun g => g.2.length)).sum =
        ((parts.map (fun g => g.2.length)).sum) + 1 := by
  intro parts
  induction parts with
  | nil => simp [add_to_group]
  | cons p rest ih =>
    obtain ⟨k0, ms0⟩ := p
    by_cases h0 : k0 = name
    · subst h0
      simp [add_to_group]
      omega
    · simp [add_to_group, h0, ih]
      omega

lemma organize_snoc (M : List Msg) (m : Msg) :
    organize_by_participant (M ++ [m]) =
      add_to_group (participant_key m) m (organize_by_participant M) := by
  simp [organize_by_participant, List.foldl_append]

lemma organize_keys_nodup (M : List Msg) :
    ((organize_by_participant M).map Prod.fst).Nodup := by
  induction M using List.reverseRecOn with
  | nil => simp [organize_by_participant]
  | append_singleton M m ih =>
    rw [organize_snoc]
    exact add_to_group_keys_nodup _ _ _ ih

lemma organize_sum (M : List Msg) :
    ((organize_by_participant M).map (fun g => g.2.length)).sum = M.length := by
  induction M using List.reverseRecOn with
  | nil => simp [organize_by_participant]
  | append_singleton M m ih =>
    rw [organize_snoc, add_to_group_sum, ih]
    simp

lemma assoc_get_organize (M : List Msg) (k : String) :
    assoc_get k (organize_by_participant M) =
      (if M.filter (fun x => decide (participant_key x = k)) = []
       then none
       else some (M.filter (fun x => decide (participant_key x = k)))) := by
  induction M using List.reverseRecOn with
  | nil => simp [organize_by_participant, assoc_get]
  | append_singleton M m ih =>
    rw [organize_snoc, assoc_get_add_to_group]
    by_cases hk : k = participant_key m
    · subst hk
      rw [if_pos rfl, ih]
      have hfilter : (M ++ [m]).filter
            (fun x => decide (participant_key x = participant_key m)) =
          M.filter (fun x => decide (participant_key x = participant_key m)) ++ [m] := by
        rw [List.filter_append]
        simp
      rw [hfilter]
      by_cases he : M.filter (fun x => decide (participant_key x = participant_key m)) = []
      · simp [he]
      · simp [he]
    · rw [if_neg hk, ih]
      have hfilter : (M ++ [m]).filter (fun x => decide (participant_key x = k)) =
          M.filter (fun x => decide (participant_key x = k)) := by
        rw [List.filter_append]
        simp [Ne.symm hk]
      rw [hfilter]

/-- C8: the groups of `organize_by_participant` partition the input: group
sizes sum to the input length; group keys are pairwise distinct; every group
keyed `k` is exactly the input-ordered sublist of messages whose participant
key (`sender_name`, or `"Unknown"` when absent) is `k` and is non-empty; and
every input message appears in the group of its own participant key. -/
theorem C8_partition (M : List Msg) :
    (((organize_by_participant M).map (fun g => g.2.length)).sum = M.length)
    ∧ ((organize_by_participant M).map Prod.fst).Nodup
    ∧ (∀ k ms, (k, ms) ∈ organize_by_participant M →
        ms = M.filter (fun x => decide (participant_key x = k)) ∧ ms ≠ [])
    ∧ (∀ m, m ∈ M →
        ∃ ms, (participant_key m, ms) ∈ organize_by_participant M ∧ m ∈ ms) := by
  refine ⟨organize_sum M, organize_keys_nodup M, ?_, ?_⟩
  · intro k ms hmem
    have hget := mem_assoc_get_of_nodup (organize_keys_nodup M) hmem
    rw [assoc_get_organize] at hget
    by_cases he : M.filter (fun x => decide (participant_key x = k)) = []
    · rw [if_pos he] at hget
      cases hget
    · rw [if_neg he] at hget
      injection hget with h
      exact ⟨h.symm, fun hn => he (h.trans hn)⟩
  · intro m hm
    have hmf : m ∈ M.filter (fun x => decide (participant_key x = participant_key m)) :=
      List.mem_filter.mpr ⟨hm, by simp⟩
    refine ⟨M.filter (fun x => decide (participant_key x = participant_key m)), ?_, hmf⟩
    apply assoc_get_mem
    rw [assoc_get_organize, if_neg (List.ne_nil_of_mem hmf)]

/-- C8 witness: the partition facts at a concrete three-message input
(alice, bob, alice). -/
theorem C8_partition_witness :
    (((organize_by_participant [msgA, msgB, msgReply]).map (fun g => g.2.length)).sum = 3)
    ∧ ((organize_by_participant [msgA, msgB, msgReply]).map Prod.fst).Nodup
    ∧ ([msgA, msgReply] =
        [msgA, msgB, msgReply].filter (fun x => decide (participant_key x = "alice")) ∧
        ([msgA, msgReply] : List Msg) ≠ [])
    ∧ (∃ ms, (participant_key msgA, ms) ∈ organize_by_participant [msgA, msgB, msgReply] ∧
        msgA ∈ ms) := by
  have h := C8_partition [msgA, msgB, msgReply]
  exact ⟨h.1, h.2.1, h.2.2.1 "alice" [msgA, msgReply] (by decide), h.2.2.2 msgA (by decide)⟩

/-! Date range (`get_date_range`, src/main.py:219-236). -/

/-- `get_date_range` (src/main.py:219-236): the result dictionary
`{"earliest": ..., "latest": ...}` is modelled as the pair
`(earliest, latest)`; `messages[-1]` and `messages[0]` are the last and first
elements of the list as received, with no sorting. -/
def get_date_range (messages : List Msg) : Option String × Option String :=
  if messages.isEmpty then (none, none)
  else (messages.getLast?.map Msg.timestamp, messages.head?.map Msg.timestamp)

/-- C5: on a non-empty list (as delivered, newest first) `get_date_range`
returns the last element's timestamp as `earliest` and the first element's
timestamp as `latest`, without re-sorting; on the empty list both are `none`. -/
theorem C5_date_range (l : List Msg) (h : l ≠ []) :
    get_date_range l = (some ((l.getLast h).timestamp), some ((l.head h).timestamp))
    ∧ get_date_range ([] : List Msg) = (none, none) := by
  refine ⟨?_, rfl⟩
  rw [get_date_range, isEmpty_false_of_ne_nil h]
  simp [List.getLast?_eq_getLast _ h, List.head?_eq_head h]

/-- C5 witness: with three messages delivered newest-first, `earliest` is the
last (oldest) element's timestamp and `latest` the first (newest) one's. -/
theorem C5_date_range_witness :
    get_date_range [msgReply, msgA, msgB] =
      (some (([msgReply, msgA, msgB].getLast (by decide)).timestamp),
       some (([msgReply, msgA, msgB].head (by decide)).timestamp))
    ∧ get_date_range ([] : List Msg) = (none, none) :=
  C5_date_range [msgReply, msgA, msgB] (by decide)

/-! Transcript rendering, as inlined in `generate_summaries` (src/main.py:
254-263) and `process_participant` (src/main.py:279-290). -/

/-- Lexicographic order on character lists (Python string comparison by code
point), defined by recursion so that concrete instances evaluate. -/
def charListLe : List Char → List Char → Bool
  | [], _ => true
  | _ :: _, [] => false
  | a :: as, b :: bs => if a = b then charListLe as bs else decide (a < b)

/-- Comparator of the `sorted(..., key=lambda m: m["datetime"])` calls
(src/main.py:256 and 281). -/
def datetime_le (a b : Msg) : Bool := charListLe a.datetime.data b.datetime.data

/-- Stable insertion of a later message after all already-placed messages that
compare less-or-equal. -/
def insert_by_datetime (m : Msg) : List Msg → List Msg
  | [] => [m]
  | x :: xs => if datetime_le x m then x :: insert_by_datetime m xs else m :: x :: xs

/-- Python `sorted(msgs, key=lambda m: m["datetime"])`: a stable ascending
sort by the `datetime` string. -/
def sort_by_datetime (l : List Msg) : List Msg :=
  l.foldl (fun acc m => insert_by_datetime m acc) []

/-- The Python `str(...)` form of an optional string, as interpolated by an
f-string: a stored `None` renders as `"None"` (src/main.py:259-260: the
`msg.get("forwarded_from", "Unknown Source")` default applies only to an
*absent* key, which `fetch_messages` never produces; a stored `None` is
returned as-is and formats as `"None"`). -/
def py_fstr_opt : Option String → String
  | some s => s
  | none => "None"

/-- One transcript line (src/main.py:258-262 and 283-287): `label` is
`msg['sender_name']` in `generate_summaries` and the `participant` key in
`process_participant`. -/
def format_message (label : String) (m : Msg) : String :=
  if m.is_forwarded then
    "[" ++ m.timestamp ++ "] " ++ label ++ " forwarded from " ++
      py_fstr_opt m.forwarded_from ++ ": " ++ m.text
  else
    "[" ++ m.timestamp ++ "] " ++ label ++ ": " ++ m.text

/-- Sorting then formatting then joining with `"\n"` (src/main.py:255-265 and
280-290). -/
def render_transcript (label : Msg → String) (msgs : List Msg) : String :=
  String.intercalate "\n" ((sort_by_datetime msgs).map (fun m => format_message (label m) m))

/-- The label used for the overall transcript: `msg['sender_name']`
(src/main.py:260-262).  `fetch_messages` always stores a string sender name
(falling back to `"Unknown"` on resolution failure, message_analyzer.py:196),
so the absent-key case — on which Python indexing would raise — is modelled
totally by the same `"Unknown"` fallback. -/
def overall_label (m : Msg) : String := m.sender_name.getD "Unknown"

/-- A forwarded message whose stored `forwarded_from` is `None`
(`is_forwarded=True, forwarded_from=None`). -/
def c2_fwd_none : Msg :=
  { id := 7, datetime := "2024-01-04T10:00:00+00:00", timestamp := "2024-01-04 10:00:00",
    text := "hi", sender_name := some "alice", sender_id := some 11,
    is_reply := false, is_forwarded := true, forwarded_from := none,
    reply_to_msg_id := none }

/-- C2 (code bug): on a forwarded message whose `forwarded_from` holds `None`,
the rendered line interpolates Python's `str(None)` — the literal `"None"` —
instead of the `"Unknown Source"` the claim (and the code's own
`msg.get(..., "Unknown Source")` default) intends: the `.get` default only
covers an absent key, not a stored `None`.  A forwarded message with a real
source label renders as the claim states. -/
theorem C2_forwarded_none_renders_None :
    format_message "alice" c2_fwd_none =
      "[2024-01-04 10:00:00] alice forwarded from None: hi"
    ∧ format_message "alice" c2_fwd_none ≠
      "[2024-01-04 10:00:00] alice forwarded from Unknown Source: hi"
    ∧ format_message "alice" { c2_fwd_none with forwarded_from := some "NewsBot" } =
      "[2024-01-04 10:00:00] alice forwarded from NewsBot: hi" := by
  refine ⟨rfl, by decide, rfl⟩

/-! Summarization coordinator (`generate_summary_with_ollama`,
`generate_summaries`, `process_participant`; src/main.py:44-74 and 238-323).
The prompt templates are parameters, as in the source they are read from
`config.yaml` (src/utils/config.py) with the defaults of that file. -/

/-- Fuel-driven core of Python `s.replace(old, new)`: replaces non-overlapping
occurrences left to right.  The fuel starts at the length of `s`, which
suffices because each step consumes at least one character of `s`. -/
def pyReplaceAux (old new : List Char) : Nat → List Char → List Char
  | _, [] => []
  | 0, s => s
  | fuel + 1, c :: rest =>
    if old.isPrefixOf (c :: rest) then
      new ++ pyReplaceAux old new fuel (List.drop (old.length - 1) rest)
    else
      c :: pyReplaceAux old new fuel rest

/-- Python `s.replace(old, new)` for a non-empty `old` (all `old` patterns
used by the source — `"{messages}"`, `"{participant}"` — are non-empty
literals; for an empty `old` the model returns `s` unchanged). -/
def pyReplace (old new s : String) : String :=
  if old.data.isEmpty then s
  else String.mk (pyReplaceAux old.data new.data s.data.length s.data)

/-- `generate_summary_with_ollama` (src/main.py:44-74), with the Ollama chat
call abstracted as `summarizer : String → Except String String`.  The prompt
is `prompt_template.format(messages=messages_text)`; on success the response
content is returned, and any raised exception `e` is caught and turned into
the error-marker string `f"Error generating summary: {str(e)}"`. -/
def generate_summary_with_ollama (summarizer : String → Except String String)
    (prompt_template messages_text : String) : String :=
  match summarizer (pyReplace "{messages}" messages_text prompt_template) with
  | .ok content => content
  | .error e => "Error generating summary: " ++ e

/-- The participant-specific prompt template:
`PARTICIPANT_PROMPT_TEMPLATE.replace("{participant}", participant)`
(src/main.py:294). -/
def participant_template_of (participant_template p : String) : String :=
  pyReplace "{participant}" p participant_template

/-- The full prompt sent to the summarizer for participant `p`. -/
def participant_prompt (participant_template p : String) (msgs : List Msg) : String :=
  pyReplace "{messages}" (render_transcript (fun _ => p) msgs)
    (participant_template_of participant_template p)

/-- `process_participant` (src/main.py:278-306): renders the participant's
transcript with the participant key as every line's label, builds the
per-participant prompt, and returns `(participant, summary)`.  The inner
`try/except` never fires because `generate_summary_with_ollama` already
converts every failure into the error-marker string. -/
def process_participant (summarizer : String → Except String String)
    (participant_template p : String) (msgs : List Msg) : String × String :=
  (p, generate_summary_with_ollama summarizer
        (participant_template_of participant_template p)
        (render_transcript (fun _ => p) msgs))

/-- The full prompt sent to the summarizer for the overall summary. -/
def overall_prompt (overall_template : String) (extended : List Msg) : String :=
  pyReplace "{messages}" (render_transcript overall_label extended) overall_template

/-- `generate_summaries` (src/main.py:238-323): one overall summary over the
extended messages, then one `process_participant` result per participant (the
`asyncio.gather` preserves task order, i.e. the participants' insertion
order), collected into `participant_summaries` keeping only truthy — that is,
non-empty — summary strings (`if summary:` at src/main.py:320). -/
def generate_summaries (summarizer : String → Except String String)
    (overall_template participant_template : String)
    (extended : List Msg) (participants : List (String × List Msg)) :
    String × List (String × String) :=
  (generate_summary_with_ollama summarizer overall_template
     (render_transcript overall_label extended),
   (participants.map (fun pm =>
      process_participant summarizer participant_template pm.1 pm.2)).filter
     (fun r => decide (r.2 ≠ "")))

lemma process_participant_fst (summarizer : String → Except String String)
    (pt p : String) (msgs : List Msg) :
    (process_participant summarizer pt p msgs).1 = p := rfl

lemma process_participant_snd (summarizer : String → Except String String)
    (pt p : String) (msgs : List Msg) :
    (process_participant summarizer pt p msgs).2 =
      match summarizer (participant_prompt pt p msgs) with
      | .ok content => content
      | .error e => "Error generating summary: " ++ e := rfl

lemma error_marker_ne_empty (e : String) : "Error generating summary: " ++ e ≠ "" := by
  intro h
  have h2 : ("Error generating summary: " ++ e).data = ("" : String).data :=
    congrArg String.data h
  rw [String.data_append] at h2
  rcases List.append_eq_nil.mp h2 with ⟨h3, _⟩
  have : "Error generating summary: ".data ≠ [] := by decide
  exact this h3

lemma assoc_get_none {β : Type} {k : String} :
    ∀ {l : List (String × β)}, (∀ r ∈ l, r.1 ≠ k) → assoc_get k l = none := by
  intro l
  induction l with
  | nil => intro _; rfl
  | cons p rest ih =>
    obtain ⟨k0, v0⟩ := p
    intro h
    have hk : ¬ k = k0 := fun he => h (k0, v0) (List.mem_cons_self _ _) he.symm
    simp only [assoc_get, if_neg hk]
    exact ih fun r hr => h r (List.mem_cons_of_mem _ hr)

lemma assoc_get_map_filter (summarizer : String → Except String String)
    (pt q : String) (qm : List Msg) :
    ∀ (P : List (String × List Msg)), (P.map Prod.fst).Nodup → (q, qm) ∈ P →
      assoc_get q ((P.map (fun pm =>
          process_participant summarizer pt pm.1 pm.2)).filter
        (fun r => decide (r.2 ≠ ""))) =
        (if (process_participant summarizer pt q qm).2 = "" then none
         else some ((process_participant summarizer pt q qm).2)) := by
  intro P
  induction P with
  | nil => intro _ hq; simp at hq
  | cons p0 rest ih =>
    obtain ⟨k0, m0⟩ := p0
    intro hnd hq
    rw [List.map_cons, List.nodup_cons] at hnd
    rcases List.mem_cons.mp hq with he | ht
    · rw [Prod.mk.injEq] at he
      obtain ⟨rfl, rfl⟩ := he
      rw [List.map_cons]
      by_cases hs : (process_participant summarizer pt q qm).2 = ""
      · rw [if_pos hs, List.filter_cons_of_neg (by simp [process_participant_fst, hs])]
        apply assoc_get_none
        intro r hr
        obtain ⟨pm, hpm, rfl⟩ := List.mem_map.mp (List.mem_filter.mp hr).1
        rw [process_participant_fst]
        intro hep
        exact hnd.1 (hep ▸ List.mem_map.mpr ⟨pm, hpm, rfl⟩)
      · rw [if_neg hs, List.filter_cons_of_pos (by simp [hs])]
        simp [assoc_get, process_participant]
    · have hk : q ≠ k0 := by
        intro he
        subst he
        exact hnd.1 (List.mem_map.mpr ⟨(q, qm), ht, rfl⟩)
      rw [List.map_cons]
      by_cases hs : (process_participant summarizer pt k0 m0).2 = ""
      · rw [List.filter_cons_of_neg (by simp [hs])]
        exact ih hnd.2 ht
      · rw [List.filter_cons_of_pos (by simp [hs])]
        have : assoc_get q ((process_participant summarizer pt k0 m0) ::
            (rest.map (fun pm => process_participant summarizer pt pm.1 pm.2)).filter
              (fun r => decide (r.2 ≠ ""))) =
            assoc_get q ((rest.map (fun pm =>
              process_participant summarizer pt pm.1 pm.2)).filter
              (fun r => decide (r.2 ≠ ""))) := by
          simp [assoc_get, process_participant_fst, hk]
        rw [this]
        exact ih hnd.2 ht

lemma assoc_get_generate_summaries (summarizer : String → Except String String)
    (ot pt : String) (ext : List Msg) (P : List (String × List Msg))
    (hnd : (P.map Prod.fst).Nodup) (q : String) (qm : List Msg) (hq : (q, qm) ∈ P) :
    assoc_get q (generate_summaries summarizer ot pt ext P).2 =
      (if (process_participant summarizer pt q qm).2 = "" then none
       else some ((process_participant summarizer pt q qm).2)) :=
  assoc_get_map_filter summarizer pt q qm P hnd hq

/-- A summarizer that always succeeds with the empty string. -/
def c3_summarizer : String → Except String String := fun _ => .ok ""

/-- C3 counterexample: a participant whose summarizer call returns the empty
string is dropped from `by_participant` by the truthiness test `if summary:`
(src/main.py:320), so the result keys are not exactly the participant keys
passed in. -/
theorem C3_counterexample_empty_summary :
    ("alice", [msgA]) ∈ [("alice", [msgA])]
    ∧ "alice" ∉ ((generate_summaries c3_summarizer "{messages}" "{messages}"
        [msgA] [("alice", [msgA])]).2.map Prod.fst) := by
  decide

/-- C3 (amended): a participant key appears in the `by_participant` mapping
returned by `generate_summaries` iff it is one of the participant keys passed
in *and* its computed summary string is non-empty; error-marker strings are
non-empty, hence retained, while a summarizer call returning the empty string
drops its participant's key. -/
theorem C3_summary_keys (summarizer : String → Except String String)
    (ot pt : String) (ext : List Msg) (P : List (String × List Msg)) (p : String) :
    p ∈ (generate_summaries summarizer ot pt ext P).2.map Prod.fst ↔
      ∃ msgs, (p, msgs) ∈ P ∧ (process_participant summarizer pt p msgs).2 ≠ "" := by
  show p ∈ ((P.map (fun pm =>
      process_participant summarizer pt pm.1 pm.2)).filter
      (fun r => decide (r.2 ≠ ""))).map Prod.fst ↔ _
  constructor
  · intro h
    obtain ⟨r, hr, hrp⟩ := List.mem_map.mp h
    have hf := List.mem_filter.mp hr
    obtain ⟨pm, hpm, rfl⟩ := List.mem_map.mp hf.1
    rw [process_participant_fst] at hrp
    have hne := hf.2
    rw [decide_eq_true_eq] at hne
    subst hrp
    exact ⟨pm.2, by simpa using hpm, hne⟩
  · rintro ⟨msgs, hpm, hne⟩
    apply List.mem_map.mpr
    refine ⟨process_participant summarizer pt p msgs, ?_,
      process_participant_fst summarizer pt p msgs⟩
    apply List.mem_filter.mpr
    refine ⟨List.mem_map.mpr ⟨(p, msgs), hpm, rfl⟩, ?_⟩
    rw [decide_eq_true_eq]
    exact hne

/-- C3 witness: the amended key characterization at a concrete input where the
summarizer fails for every prompt, so the key is retained via the non-empty
error-marker string. -/
theorem C3_summary_keys_witness :
    "alice" ∈ (generate_summaries (fun _ => .error "down") "{messages}" "{messages}"
        [msgA] [("alice", [msgA])]).2.map Prod.fst ↔
      ∃ msgs, ("alice", msgs) ∈ [("alice", [msgA])] ∧
        (process_participant (fun _ => .error "down") "{messages}" "alice" msgs).2 ≠ "" :=
  C3_summary_keys (fun _ => .error "down") "{messages}" "{messages}"
    [msgA] [("alice", [msgA])] "alice"

/-- C6: failure isolation in `generate_summaries`.  If the summarizer call for
participant `p` raises with message `e`, then `p`'s entry in the returned
mapping is the error-marker string `"Error generating summary: " ++ e`; every
participant's entry is determined by its own call alone (so the other calls'
results are unaffected); the overall summary is the result of its own call
regardless of per-participant failures; and if the overall call raises, the
overall summary becomes the same kind of error-marker string.  The function is
total: it always returns, and no exception escapes. -/
theorem C6_failure_isolation (summarizer : String → Except String String)
    (ot pt : String) (ext : List Msg) (P : List (String × List Msg))
    (hnd : (P.map Prod.fst).Nodup)
    (p : String) (pmsgs : List Msg) (hp : (p, pmsgs) ∈ P) (e : String)
    (hfail : summarizer (participant_prompt pt p pmsgs) = .error e) :
    assoc_get p (generate_summaries summarizer ot pt ext P).2 =
      some ("Error generating summary: " ++ e)
    ∧ (∀ q qmsgs, (q, qmsgs) ∈ P →
        assoc_get q (generate_summaries summarizer ot pt ext P).2 =
          (if (process_participant summarizer pt q qmsgs).2 = "" then none
           else some ((process_participant summarizer pt q qmsgs).2)))
    ∧ (generate_summaries summarizer ot pt ext P).1 =
        generate_summary_with_ollama summarizer ot (render_transcript overall_label ext)
    ∧ (∀ e2, summarizer (overall_prompt ot ext) = .error e2 →
        (generate_summaries summarizer ot pt ext P).1 =
          "Error generating summary: " ++ e2) := by
  refine ⟨?_, fun q qmsgs hq =>
    assoc_get_generate_summaries summarizer ot pt ext P hnd q qmsgs hq, rfl, ?_⟩
  · have h := assoc_get_generate_summaries summarizer ot pt ext P hnd p pmsgs hp
    rw [process_participant_snd, hfail] at h
    rw [h, if_neg (error_marker_ne_empty e)]
  · intro e2 hf2
    show (match summarizer (pyReplace "{messages}"
        (render_transcript overall_label ext) ot) with
      | .ok content => content
      | .error e => "Error generating summary: " ++ e) = _
    rw [show summarizer (pyReplace "{messages}"
        (render_transcript overall_label ext) ot) = Except.error e2 from hf2]

/-- The three participant groups for the C6 witness: alice, bob, carol. -/
def c6_groups : List (String × List Msg) :=
  [("alice", [msgA]), ("bob", [msgB]), ("carol", [msgReply])]

/-- A summarizer that raises exactly on bob's prompt and succeeds elsewhere. -/
def c6_summarizer : String → Except String String :=
  fun s => if s = participant_prompt "{messages}" "bob" [msgB]
           then .error "boom" else .ok "fine"

/-- C6 witness: with three participants and the second call raising, the
second key maps to the error-marker string, the first key's entry is its own
call's result, and the overall summary is its own call's result. -/
theorem C6_failure_isolation_witness :
    assoc_get "bob" (generate_summaries c6_summarizer "{messages}" "{messages}"
        [msgA] c6_groups).2 = some ("Error generating summary: " ++ "boom")
    ∧ assoc_get "alice" (generate_summaries c6_summarizer "{messages}" "{messages}"
        [msgA] c6_groups).2 =
        (if (process_participant c6_summarizer "{messages}" "alice" [msgA]).2 = ""
         then none
         else some ((process_participant c6_summarizer "{messages}" "alice" [msgA]).2))
    ∧ (generate_summaries c6_summarizer "{messages}" "{messages}" [msgA] c6_groups).1 =
        generate_summary_with_ollama c6_summarizer "{messages}"
          (render_transcript overall_label [msgA]) := by
  have h := C6_failure_isolation c6_summarizer "{messages}" "{messages}"
    [msgA] c6_groups (by decide) "bob" [msgB] (by decide) "boom"
    (by simp [c6_summarizer])
  exact ⟨h.1, h.2.1 "alice" [msgA] (by decide), h.2.2.1⟩

/-! Top-level analysis (`analyze_messages`, src/main.py:76-152), embedded from
the point after `fetch_messages` returned: the fetched message list and chat
title are parameters. -/

/-- The result dictionary of `analyze_messages`: either the error record
`{"status": "error", "message": ...}` (src/main.py:111-115) or the success
record compiled at src/main.py:135-150. -/
inductive AnalysisResult where
  | error (message : String)
  | success (chat_title : String) (target_users : List Target)
      (total filtered with_context : Nat)
      (date_range : Option String × Option String)
      (overall_summary : Option String)
      (by_participant : List (String × String))
deriving DecidableEq

/-- The post-fetch part of `analyze_messages` (src/main.py:109-152):
fast-fail on an empty fetch result, else filter and extend, organize by
participant, optionally summarize (`if summarize and extended_messages:`,
src/main.py:127), and compile the success record. -/
def analyze_messages (summarizer : String → Except String String)
    (ot pt : String) (messages : List Msg) (chat_title : String)
    (target_users : List Target) (summarize : Bool) : AnalysisResult :=
  if messages.isEmpty then .error "No messages found in the specified chat"
  else
    let fe := filter_and_extend_messages messages target_users
    let participants := organize_by_participant fe.2
    let s :=
      if summarize && !fe.2.isEmpty then
        let r := generate_summaries summarizer ot pt fe.2 participants
        (some r.1, r.2)
      else ((none : Option String), ([] : List (String × String)))
    .success chat_title target_users messages.length fe.1.length fe.2.length
      (get_date_range fe.1) s.1 s.2

/-- C7: on an empty fetched message list, `analyze_messages` returns the
structured error record — independently of the summarizer, the prompt
templates, the chat title, the target users and the summarize flag, i.e.
without the downstream stages influencing the result — and on a non-empty
list it never returns an error record: the empty fetch is the only
pipeline-aborting path after fetching, and no exception escapes (the
embedding is a total function). -/
theorem C7_empty_fast_fail (S1 S2 : String → Except String String)
    (ot1 pt1 ot2 pt2 ct1 ct2 : String) (tu1 tu2 : List Target) (sm1 sm2 : Bool)
    (messages : List Msg) :
    (messages = [] →
      analyze_messages S1 ot1 pt1 messages ct1 tu1 sm1 =
        .error "No messages found in the specified chat"
      ∧ analyze_messages S1 ot1 pt1 messages ct1 tu1 sm1 =
        analyze_messages S2 ot2 pt2 messages ct2 tu2 sm2)
    ∧ (messages ≠ [] →
      ∀ e, analyze_messages S1 ot1 pt1 messages ct1 tu1 sm1 ≠ .error e) := by
  constructor
  · intro h
    subst h
    exact ⟨rfl, rfl⟩
  · intro h e
    have h' := isEmpty_false_of_ne_nil h
    simp [analyze_messages, h']

/-- C7 witness: the fast-fail record on an empty fetch (for two different
summarizers, templates, titles, targets and flags), and a non-error result on
a one-message fetch. -/
theorem C7_empty_fast_fail_witness :
    (analyze_messages (fun _ => .ok "sum") "{messages}" "{messages}" [] "chat" [] true =
        .error "No messages found in the specified chat"
      ∧ analyze_messages (fun _ => .ok "sum") "{messages}" "{messages}" [] "chat" [] true =
        analyze_messages (fun _ => .error "down") "o" "p" [] "other"
          [Target.str "alice"] false)
    ∧ analyze_messages (fun _ => .ok "sum") "{messages}" "{messages}" [msgA] "chat" []
        true ≠ .error "x" := by
  refine ⟨?_, ?_⟩
  · exact (C7_empty_fast_fail (fun _ => .ok "sum") (fun _ => .error "down")
      "{messages}" "{messages}" "o" "p" "chat" "other" [] [Target.str "alice"]
      true false []).1 rfl
  · exact (C7_empty_fast_fail (fun _ => .ok "sum") (fun _ => .error "down")
      "{messages}" "{messages}" "o" "p" "chat" "other" [] [Target.str "alice"]
      true false [msgA]).2 (by decide) "x"
